import Mathlib

/-!
Shallow embedding of the coordination core of `examples/patterns/async-patterns.py`:
the retrying HTTP fetch client (`AsyncHTTPClient._request`), the fan-out dispatcher
(`fetch_multiple_urls` built on `asyncio.gather(..., return_exceptions=True)` and an
`asyncio.Semaphore`), and the background-task lifecycle manager (`AsyncTaskManager`).

Transport is abstracted exactly as in the source: `self.session.request(method, url)`
either produces an HTTP response (status, content type, body) or raises a transport
exception, here described by its string rendering (what `str(e)` yields in Python).
A deterministic function from the attempt index to that outcome captures what the
real transport would do on each successive attempt of one logical request.
-/

namespace AsyncPatterns

/-- Embeds the `APIResponse` dataclass: `status: int`, `data: Optional[...]`,
`error: Optional[str]`, both optional fields defaulting to `None`. -/
structure APIResponse where
  status : Nat
  data : Option String := none
  error : Option String := none
deriving DecidableEq, Repr

/-- What `self.session.request` hands back when it does not raise:
an HTTP status, the `content_type`, and the body text. -/
structure HTTPResult where
  status : Nat
  contentType : String
  body : String
deriving DecidableEq, Repr

/-- One transport attempt either returns an `HTTPResult` or raises an exception,
identified by its string description (`str(e)`). -/
inductive TransportOutcome
  | response (r : HTTPResult)
  | raised (e : String)
deriving DecidableEq, Repr

/-- `str(last_exception)` from line 80: `last_exception` starts as `None`. -/
def strOfLastExc : Option String → String
  | none => "None"
  | some e => e

/-- Line 65: decode the body as JSON when `response.content_type ==
'application/json'`, otherwise take the raw text. The decoded value is kept
abstract as the body string; only which branch ran matters here. -/
def decodePayload (r : HTTPResult) : String :=
  if r.contentType = "application/json" then r.body else r.body

/-- Line 74: `wait_time = 2 ** attempt` — the exponential backoff schedule. -/
def waitTime (attempt : Nat) : Nat :=
  2 ^ attempt

/-- Everything one run of `_request` did: the returned `APIResponse`, the attempt
indices at which the transport was actually called, and the backoff waits incurred
(in order, each between two consecutive attempts). -/
structure RequestTrace where
  response : APIResponse
  calls : List Nat
  waits : List Nat
deriving DecidableEq, Repr

/-- The body of `_request`'s `for attempt in range(retries + 1)` loop (lines 61-80),
as recursion over the remaining attempt indices, threading `last_exception`.
 - status < 400: return a data `APIResponse` at once (lines 64-66);
 - status ≥ 400: return an error `APIResponse` at once, no retry (lines 67-69);
 - transport raised: record the exception; if `attempt < retries` wait
   `2 ** attempt` and continue, else the loop ends and line 80 returns
   `APIResponse(status=0, error=str(last_exception))`. -/
def requestLoop (transport : Nat → TransportOutcome) (retries : Nat) :
    List Nat → Option String → RequestTrace
  | [], lastExc =>
      ⟨⟨0, none, some (strOfLastExc lastExc)⟩, [], []⟩
  | attempt :: rest, _ =>
      match transport attempt with
      | TransportOutcome.response r =>
          if r.status < 400 then
            ⟨⟨r.status, some (decodePayload r), none⟩, [attempt], []⟩
          else
            ⟨⟨r.status, none, some r.body⟩, [attempt], []⟩
      | TransportOutcome.raised e =>
          if attempt < retries then
            let t := requestLoop transport retries rest (some e)
            ⟨t.response, attempt :: t.calls, waitTime attempt :: t.waits⟩
          else
            let t := requestLoop transport retries rest (some e)
            ⟨t.response, attempt :: t.calls, t.waits⟩

/-- `AsyncHTTPClient._request(method, url, retries)`: run the attempt loop over
`range(retries + 1)` starting from `last_exception = None`, returning the full
trace. The `method`/`url` pair is fixed by the caller and folded into `transport`. -/
def requestTrace (transport : Nat → TransportOutcome) (retries : Nat) : RequestTrace :=
  requestLoop transport retries (List.range (retries + 1)) none

/-- The `APIResponse` that `_request` returns. -/
def request (transport : Nat → TransportOutcome) (retries : Nat) : APIResponse :=
  (requestTrace transport retries).response

/-- `AsyncHTTPClient.get(url)`: `_request("GET", url)` with the default retry
budget `retries = 3`. -/
def client_get (transport : Nat → TransportOutcome) : APIResponse :=
  request transport 3

/-! ## Fan-out dispatcher (`fetch_multiple_urls`, lines 83-101)

Each URL gets one unit of work, `fetch_with_semaphore(client, url)`, which under a
semaphore permit runs `client.get(url)`. The units are gathered with
`asyncio.gather(*tasks, return_exceptions=True)`, which yields one result per task
in the order the tasks were listed (documented `asyncio.gather` behaviour),
regardless of completion order; a task that raised contributes its exception object
as its result instead of aborting the batch. A unit can only raise from code
outside `_request`'s own `except Exception` handling — a programming error in the
unit itself — which `UnitExec.fault` represents; `UnitExec.normal` is an execution
whose only effects are those of `client.get`. The semaphore affects timing only,
never results; its admission discipline is modelled separately below. -/

/-- How the unit of work for one URL executes: normally (its result is whatever
`client.get` returns) or raising an unexpected fault with description `e`. -/
inductive UnitExec
  | normal
  | fault (e : String)
deriving DecidableEq, Repr

/-- One element of the list `asyncio.gather(..., return_exceptions=True)` returns:
either the unit's `APIResponse`, or the exception object the unit raised. -/
inductive GatherResult
  | ok (r : APIResponse)
  | exn (e : String)
deriving DecidableEq, Repr

/-- `fetch_with_semaphore(client, url)` (lines 95-97) as observed through `gather`:
a normal execution returns `client.get(url)`; a faulting one raises, and
`return_exceptions=True` turns that raise into the exception itself as the result. -/
def fetch_with_semaphore (transport : String → Nat → TransportOutcome)
    (exec : String → UnitExec) (url : String) : GatherResult :=
  match exec url with
  | UnitExec.normal => GatherResult.ok (client_get (transport url))
  | UnitExec.fault e => GatherResult.exn e

/-- `fetch_multiple_urls(urls)` (lines 83-101): one task per URL, in list order,
gathered with `return_exceptions=True`. -/
def fetch_multiple_urls (transport : String → Nat → TransportOutcome)
    (exec : String → UnitExec) (urls : List String) : List GatherResult :=
  urls.map (fetch_with_semaphore transport exec)

/-! ## Concurrency limiter (`asyncio.Semaphore`, lines 93-97)

`fetch_multiple_urls` creates `asyncio.Semaphore(10)` per batch and each unit wraps
its transport call in `async with semaphore`. Cooperative scheduling is modelled by
a small-step relation on the batch state: each unit is `waiting` (suspended in
`semaphore.acquire()`), `inflight` (permit held, inside `client.get`), or
`finished` (permit released). `acquire` needs a positive permit counter and
decrements it — a unit cannot enter the in-flight phase while the counter is zero,
which is exactly an `asyncio.Semaphore`'s suspension behaviour — and leaving the
`async with` block increments it. -/

/-- Phase of one unit with respect to the semaphore. -/
inductive Phase
  | waiting
  | inflight
  | finished
deriving DecidableEq, Repr

/-- State of one batch: the semaphore's counter and every unit's phase. -/
structure SemState where
  permits : Nat
  phases : List Phase
deriving DecidableEq, Repr

/-- Cooperative scheduling steps of a batch: the runtime picks any unit that can
move. A `waiting` unit acquires only when a permit is available; an `inflight`
unit finishes its call and releases its permit. -/
inductive SemStep : SemState → SemState → Prop
  | acquire (s : SemState) (i : Nat)
      (hw : s.phases.get? i = some Phase.waiting) (hp : 0 < s.permits) :
      SemStep s ⟨s.permits - 1, s.phases.set i Phase.inflight⟩
  | release (s : SemState) (i : Nat)
      (hf : s.phases.get? i = some Phase.inflight) :
      SemStep s ⟨s.permits + 1, s.phases.set i Phase.finished⟩

/-- Initial batch state: a fresh semaphore with `K` permits (line 93 uses `K = 10`)
and one not-yet-started unit per request. -/
def semInit (K n : Nat) : SemState :=
  ⟨K, List.replicate n Phase.waiting⟩

/-- Number of units currently in the calling-transport phase. -/
def countInflight : List Phase → Nat
  | [] => 0
  | Phase.inflight :: rest => countInflight rest + 1
  | _ :: rest => countInflight rest

/-! ## Task lifecycle manager (`AsyncTaskManager`, lines 132-180)

`self.tasks` is a Python dict from task id to the `asyncio.Task` object. Task
objects live on a heap addressed by creation order (`next` is the next fresh
address); each records whether it has reached a terminal state (`task.done()`),
whether `task.cancel()` has been called on it, the `task_id` its done-callback
captured at creation (line 146's lambda closes over `task_id`), and the coroutine
it runs. The dict mirrors Python semantics: insertion replaces in place, lookup
finds the unique binding, deletion removes it. -/

/-- `task.done()` is `false` while running, `true` once terminal
(completed, failed or cancelled — the distinction only feeds logging). -/
inductive TaskState
  | running
  | done
deriving DecidableEq, Repr

/-- One `asyncio.Task` object as the manager observes it. -/
structure TaskObj where
  state : TaskState
  cancelRequested : Bool
  cbName : String
  work : String
deriving Repr

/-- The manager plus the heap of task objects it has created. -/
structure Manager where
  tasks : List (String × Nat)
  pool : Nat → Option TaskObj
  next : Nat

/-- Python dict lookup: the value bound to `k`, if any. -/
def dictLookup (d : List (String × Nat)) (k : String) : Option Nat :=
  match d with
  | [] => none
  | (k2, v) :: rest => if k2 = k then some v else dictLookup rest k

/-- Python dict assignment `d[k] = v`: replace in place, else append. -/
def dictInsert (d : List (String × Nat)) (k : String) (v : Nat) : List (String × Nat) :=
  match d with
  | [] => [(k, v)]
  | (k2, v2) :: rest => if k2 = k then (k, v) :: rest else (k2, v2) :: dictInsert rest k v

/-- Python `del d[k]` (on a dict with unique keys). -/
def dictDelete (d : List (String × Nat)) (k : String) : List (String × Nat) :=
  match d with
  | [] => []
  | (k2, v2) :: rest => if k2 = k then dictDelete rest k else (k2, v2) :: dictDelete rest k

/-- `AsyncTaskManager.cancel_task(task_id)` (lines 150-158): if the id is in the
dict and the task is not done, call `task.cancel()` (set its flag) and return
`True`; otherwise return `False` and change nothing. -/
def cancel_task (m : Manager) (taskId : String) : Manager × Bool :=
  match dictLookup m.tasks taskId with
  | some h =>
      match m.pool h with
      | some t =>
          if t.state = TaskState.running then
            ({ m with pool := fun k =>
                if k = h then some { t with cancelRequested := true } else m.pool k },
             true)
          else (m, false)
      | none => (m, false)
  | none => (m, false)

/-- `AsyncTaskManager.start_task(task_id, coro)` (lines 140-148): if the id is
already in the dict, `cancel_task` it first; then `asyncio.create_task(coro)`
allocates a fresh running task whose done-callback captures `task_id`, and the
dict entry for `task_id` is pointed at it. -/
def start_task (m : Manager) (taskId work : String) : Manager :=
  let m1 := if (dictLookup m.tasks taskId).isSome then (cancel_task m taskId).1 else m
  { tasks := dictInsert m1.tasks taskId m1.next,
    pool := fun k =>
      if k = m1.next then some ⟨TaskState.running, false, taskId, work⟩ else m1.pool k,
    next := m1.next + 1 }

/-- `AsyncTaskManager._task_completed(task_id, task)` (lines 160-170): if
`task_id` is in the dict, delete that entry — whatever task it currently points
at; the rest of the method only logs the outcome classification. -/
def task_completed (m : Manager) (taskId : String) : Manager :=
  if (dictLookup m.tasks taskId).isSome then
    { m with tasks := dictDelete m.tasks taskId }
  else m

/-- Runtime event: the task at heap address `h` reaches a terminal state, so
`task.done()` flips to true and asyncio fires the done-callback registered at
line 146, which is `_task_completed` applied to the `task_id` the lambda
captured when this task was created. -/
def finish_task (m : Manager) (h : Nat) : Manager :=
  match m.pool h with
  | some t =>
      let m1 := { m with pool := fun k =>
          if k = h then some { t with state := TaskState.done } else m.pool k }
      task_completed m1 t.cbName
  | none => m

end AsyncPatterns
namespace AsyncPatterns

theorem requestLoop_nil (transport : Nat → TransportOutcome) (retries : Nat)
    (le : Option String) :
    requestLoop transport retries [] le = ⟨⟨0, none, some (strOfLastExc le)⟩, [], []⟩ := rfl

theorem requestLoop_cons_response (transport : Nat → TransportOutcome) (retries a : Nat)
    (rest : List Nat) (le : Option String) (r : HTTPResult)
    (h : transport a = TransportOutcome.response r) :
    requestLoop transport retries (a :: rest) le =
      if r.status < 400 then ⟨⟨r.status, some (decodePayload r), none⟩, [a], []⟩
      else ⟨⟨r.status, none, some r.body⟩, [a], []⟩ := by
  conv_lhs => rw [requestLoop]
  rw [h]

theorem requestLoop_cons_raised (transport : Nat → TransportOutcome) (retries a : Nat)
    (rest : List Nat) (le : Option String) (e : String)
    (h : transport a = TransportOutcome.raised e) :
    requestLoop transport retries (a :: rest) le =
      if a < retries then
        ⟨(requestLoop transport retries rest (some e)).response,
         a :: (requestLoop transport retries rest (some e)).calls,
         waitTime a :: (requestLoop transport retries rest (some e)).waits⟩
      else
        ⟨(requestLoop transport retries rest (some e)).response,
         a :: (requestLoop transport retries rest (some e)).calls,
         (requestLoop transport retries rest (some e)).waits⟩ := by
  conv_lhs => rw [requestLoop]
  rw [h]

theorem requestLoop_calls_ne_nil (transport : Nat → TransportOutcome) (retries a : Nat)
    (rest : List Nat) (le : Option String) :
    (requestLoop transport retries (a :: rest) le).calls ≠ [] := by
  cases h : transport a with
  | response r =>
      rw [requestLoop_cons_response transport retries a rest le r h]
      by_cases hs : r.status < 400 <;> simp [hs]
  | raised e =>
      rw [requestLoop_cons_raised transport retries a rest le e h]
      by_cases hl : a < retries <;> simp [hl]

theorem requestLoop_all_raised (transport : Nat → TransportOutcome) (retries : Nat)
    (elast : String) (hlast : transport retries = TransportOutcome.raised elast) :
    ∀ k attempt le, attempt + k = retries →
      (∀ a, attempt ≤ a → a ≤ retries → ∃ e, transport a = TransportOutcome.raised e) →
      requestLoop transport retries (List.range' attempt (k + 1)) le =
        ⟨⟨0, none, some elast⟩, List.range' attempt (k + 1),
          (List.range' attempt k).map waitTime⟩ := by
  intro k
  induction k with
  | zero =>
      intro attempt le hak _
      have hae : attempt = retries := by omega
      subst hae
      rw [List.range'_succ]
      rw [requestLoop_cons_raised transport attempt attempt _ le elast hlast]
      rw [if_neg (by omega)]
      simp [requestLoop_nil, strOfLastExc]
  | succ k ih =>
      intro attempt le hak hall
      have ha : attempt < retries := by omega
      obtain ⟨e, he⟩ := hall attempt (Nat.le_refl _) (by omega)
      rw [List.range'_succ]
      rw [requestLoop_cons_raised transport retries attempt _ le e he]
      rw [if_pos ha]
      rw [ih (attempt + 1) (some e) (by omega) (fun a h1 h2 => hall a (by omega) h2)]
      simp [List.range'_succ]

end AsyncPatterns
namespace AsyncPatterns

theorem requestLoop_waits (transport : Nat → TransportOutcome) (retries : Nat) :
    ∀ k attempt le, attempt + k = retries →
      (requestLoop transport retries (List.range' attempt (k + 1)) le).waits =
        ((requestLoop transport retries (List.range' attempt (k + 1)) le).calls.dropLast).map
          waitTime := by
  intro k
  induction k with
  | zero =>
      intro attempt le hak
      have hae : attempt = retries := by omega
      subst hae
      rw [List.range'_succ]
      cases h : transport attempt with
      | response r =>
          rw [requestLoop_cons_response transport attempt attempt _ le r h]
          by_cases hs : r.status < 400 <;> simp [hs]
      | raised e =>
          rw [requestLoop_cons_raised transport attempt attempt _ le e h]
          rw [if_neg (by omega)]
          simp [requestLoop_nil]
  | succ k ih =>
      intro attempt le hak
      have ha : attempt < retries := by omega
      rw [List.range'_succ]
      cases h : transport attempt with
      | response r =>
          rw [requestLoop_cons_response transport retries attempt _ le r h]
          by_cases hs : r.status < 400 <;> simp [hs]
      | raised e =>
          rw [requestLoop_cons_raised transport retries attempt _ le e h]
          rw [if_pos ha]
          have hne : (requestLoop transport retries (List.range' (attempt + 1) (k + 1))
              (some e)).calls ≠ [] := by
            rw [List.range'_succ]
            exact requestLoop_calls_ne_nil transport retries (attempt + 1) _ (some e)
          simp only [List.dropLast_cons_of_ne_nil hne, List.map_cons]
          rw [← ih (attempt + 1) (some e) (by omega)]

theorem requestLoop_response_shape (transport : Nat → TransportOutcome) (retries : Nat) :
    ∀ attempts le,
      (((requestLoop transport retries attempts le).response.error = none ∧
        ∃ p, (requestLoop transport retries attempts le).response.data = some p) ∨
       ((requestLoop transport retries attempts le).response.data = none ∧
        ∃ e, (requestLoop transport retries attempts le).response.error = some e)) := by
  intro attempts
  induction attempts with
  | nil =>
      intro le
      right
      exact ⟨rfl, strOfLastExc le, rfl⟩
  | cons a rest ih =>
      intro le
      cases h : transport a with
      | response r =>
          rw [requestLoop_cons_response transport retries a rest le r h]
          by_cases hs : r.status < 400
          · rw [if_pos hs]
            left
            exact ⟨rfl, decodePayload r, rfl⟩
          · rw [if_neg hs]
            right
            exact ⟨rfl, r.body, rfl⟩
      | raised e =>
          rw [requestLoop_cons_raised transport retries a rest le e h]
          by_cases hl : a < retries
          · rw [if_pos hl]
            exact ih (some e)
          · rw [if_neg hl]
            exact ih (some e)

/-- C3: when the first transport call comes back with an HTTP status ≥ 400,
`_request` makes exactly that one transport call — no retry — and immediately
returns an `APIResponse` whose status is the returned status, whose `error`
field is the response body, and whose `data` field is empty (lines 67-69). -/
theorem request_no_retry_on_http_error (transport : Nat → TransportOutcome)
    (retries : Nat) (r : HTTPResult)
    (h0 : transport 0 = TransportOutcome.response r) (h4 : 400 ≤ r.status) :
    (requestTrace transport retries).calls = [0] ∧
    (requestTrace transport retries).response =
      ⟨r.status, none, some r.body⟩ := by
  unfold requestTrace
  rw [List.range_eq_range']
  rw [List.range'_succ]
  rw [requestLoop_cons_response transport retries 0 _ none r h0]
  rw [if_neg (by omega)]
  exact ⟨rfl, rfl⟩

/-- Closed witness for `request_no_retry_on_http_error`: a transport that
answers 500 with body "oops" on every attempt. -/
theorem request_no_retry_on_http_error_witness :
    (requestTrace (fun _ => TransportOutcome.response ⟨500, "text/plain", "oops"⟩) 3).calls =
      [0] ∧
    (requestTrace (fun _ => TransportOutcome.response ⟨500, "text/plain", "oops"⟩) 3).response =
      ⟨500, none, some "oops"⟩ :=
  request_no_retry_on_http_error (fun _ => TransportOutcome.response ⟨500, "text/plain", "oops"⟩)
    3 ⟨500, "text/plain", "oops"⟩ rfl (by decide)

/-- C4: when every attempt fails at the transport layer, `_request` with retry
budget `retries` makes exactly `retries + 1` transport calls and returns
`APIResponse(status=0, error=str(last_exception))`, the description of the last
transport error (lines 61-80). -/
theorem request_exhausts_retry_budget (transport : Nat → TransportOutcome)
    (retries : Nat) (elast : String)
    (hall : ∀ a, a ≤ retries → ∃ e, transport a = TransportOutcome.raised e)
    (hlast : transport retries = TransportOutcome.raised elast) :
    (requestTrace transport retries).calls.length = retries + 1 ∧
    (requestTrace transport retries).response = ⟨0, none, some elast⟩ := by
  unfold requestTrace
  rw [List.range_eq_range']
  rw [requestLoop_all_raised transport retries elast hlast retries 0 none (by omega)
    (fun a _ h2 => hall a h2)]
  simp

/-- Closed witness for `request_exhausts_retry_budget`: a transport that times
out on every attempt, with the default budget `retries = 3`: 4 calls in total. -/
theorem request_exhausts_retry_budget_witness :
    (requestTrace (fun _ => TransportOutcome.raised "timeout") 3).calls.length = 3 + 1 ∧
    (requestTrace (fun _ => TransportOutcome.raised "timeout") 3).response =
      ⟨0, none, some "timeout"⟩ :=
  request_exhausts_retry_budget (fun _ => TransportOutcome.raised "timeout") 3 "timeout"
    (fun _ _ => ⟨"timeout", rfl⟩) rfl

/-- C5: the backoff policy is the pure function `wait(attempt) = base * 2 ^ attempt`
with `base = 1` (line 74), so `wait 0 = 1`, `wait 1 = 2`, `wait 2 = 4`; and in any
run of `_request`, the incurred waits are exactly one per transport call except the
final one (`calls.dropLast`), each valued by the policy at that attempt index — so
no wait ever precedes the first attempt and none follows the last. -/
theorem backoff_policy_waits (a : Nat) (transport : Nat → TransportOutcome)
    (retries : Nat) :
    waitTime a = 1 * 2 ^ a ∧ waitTime 0 = 1 ∧ waitTime 1 = 2 ∧ waitTime 2 = 4 ∧
    (requestTrace transport retries).waits =
      ((requestTrace transport retries).calls.dropLast).map waitTime := by
  refine ⟨by simp [waitTime], rfl, rfl, rfl, ?_⟩
  unfold requestTrace
  rw [List.range_eq_range']
  exact requestLoop_waits transport retries retries 0 none (by omega)

/-- C6: `_request` never raises past its own boundary: it is a total function into
`APIResponse`, and every outcome is encoded in the returned value — either a
success (payload present, no error) or a rejection/exhaustion (error message
present, no payload). -/
theorem request_never_raises (transport : Nat → TransportOutcome) (retries : Nat) :
    ((request transport retries).error = none ∧
      ∃ p, (request transport retries).data = some p) ∨
    ((request transport retries).data = none ∧
      ∃ e, (request transport retries).error = some e) := by
  unfold request requestTrace
  exact requestLoop_response_shape transport retries (List.range (retries + 1)) none

end AsyncPatterns
namespace AsyncPatterns

/-- C1: for every list of N URLs, `fetch_multiple_urls` (all units executing
normally, transport arbitrary — including transports that fail every attempt)
returns exactly N results, and the result at index i is the `APIResponse` that
the fetch client produced for the URL at index i; `asyncio.gather` returns
results in task-submission order regardless of completion order. -/
theorem fetch_multiple_urls_ordered (transport : String → Nat → TransportOutcome)
    (urls : List String) :
    (fetch_multiple_urls transport (fun _ => UnitExec.normal) urls).length = urls.length ∧
    ∀ i, (h : i < urls.length) →
      (fetch_multiple_urls transport (fun _ => UnitExec.normal) urls)[i]? =
        some (GatherResult.ok (request (transport urls[i]) 3)) := by
  constructor
  · simp [fetch_multiple_urls]
  · intro i h
    unfold fetch_multiple_urls
    rw [List.getElem?_map]
    rw [List.getElem?_eq_getElem h]
    simp [fetch_with_semaphore, client_get]

/-- Closed witness for `fetch_multiple_urls_ordered`: two URLs against a
transport that fails every attempt; the batch still yields 2 ordered responses. -/
theorem fetch_multiple_urls_ordered_witness :
    (fetch_multiple_urls (fun _ _ => TransportOutcome.raised "down")
        (fun _ => UnitExec.normal) ["u1", "u2"]).length = 2 ∧
    (fetch_multiple_urls (fun _ _ => TransportOutcome.raised "down")
        (fun _ => UnitExec.normal) ["u1", "u2"])[1]? =
      some (GatherResult.ok (request (fun _ => TransportOutcome.raised "down") 3)) :=
  ⟨(fetch_multiple_urls_ordered (fun _ _ => TransportOutcome.raised "down") ["u1", "u2"]).1,
   (fetch_multiple_urls_ordered (fun _ _ => TransportOutcome.raised "down") ["u1", "u2"]).2
    1 (by decide)⟩

/-- C2 counterexample: in a batch of two URLs where the unit for "b" raises an
unexpected fault, `fetch_multiple_urls` places the raw exception object at index
1 — not an `APIResponse` with status 0 — because `asyncio.gather` is called with
`return_exceptions=True` and nothing converts the exception into a Response. -/
theorem gather_returns_raw_exception :
    fetch_multiple_urls (fun _ _ => TransportOutcome.response ⟨200, "text/plain", "ok"⟩)
        (fun u => if u = "b" then UnitExec.fault "ValueError: boom" else UnitExec.normal)
        ["a", "b"] =
      [GatherResult.ok ⟨200, some "ok", none⟩, GatherResult.exn "ValueError: boom"] ∧
    (fetch_multiple_urls (fun _ _ => TransportOutcome.response ⟨200, "text/plain", "ok"⟩)
        (fun u => if u = "b" then UnitExec.fault "ValueError: boom" else UnitExec.normal)
        ["a", "b"])[1]? ≠
      some (GatherResult.ok ⟨0, none, some "ValueError: boom"⟩) := by
  decide

/-- C2 amended: if a unit's execution raises an unexpected fault outside the
fetch client's own error handling, the dispatcher captures it — the fault does
not propagate to other units, the batch still returns one element per request in
order, and every normally-executing unit's index carries its own `APIResponse` —
but the captured fault appears at the faulting unit's index as the raw exception
object, not as a status-0 `APIResponse`. -/
theorem gather_captures_fault_in_place (transport : String → Nat → TransportOutcome)
    (exec : String → UnitExec) (urls : List String) (i : Nat) (h : i < urls.length)
    (e : String) (hf : exec urls[i] = UnitExec.fault e) :
    (fetch_multiple_urls transport exec urls).length = urls.length ∧
    (fetch_multiple_urls transport exec urls)[i]? = some (GatherResult.exn e) ∧
    ∀ j, (hj : j < urls.length) → exec urls[j] = UnitExec.normal →
      (fetch_multiple_urls transport exec urls)[j]? =
        some (GatherResult.ok (request (transport urls[j]) 3)) := by
  refine ⟨by simp [fetch_multiple_urls], ?_, ?_⟩
  · unfold fetch_multiple_urls
    rw [List.getElem?_map]
    rw [List.getElem?_eq_getElem h]
    simp [fetch_with_semaphore, hf]
  · intro j hj hn
    unfold fetch_multiple_urls
    rw [List.getElem?_map]
    rw [List.getElem?_eq_getElem hj]
    simp [fetch_with_semaphore, hn, client_get]

/-- Closed witness for `gather_captures_fault_in_place`: the faulting unit's
exception lands at its own index and the other unit's response is unaffected. -/
theorem gather_captures_fault_in_place_witness :
    (fetch_multiple_urls (fun _ _ => TransportOutcome.response ⟨200, "text/plain", "ok"⟩)
        (fun u => if u = "b" then UnitExec.fault "ValueError: boom" else UnitExec.normal)
        ["a", "b"])[1]? = some (GatherResult.exn "ValueError: boom") ∧
    (fetch_multiple_urls (fun _ _ => TransportOutcome.response ⟨200, "text/plain", "ok"⟩)
        (fun u => if u = "b" then UnitExec.fault "ValueError: boom" else UnitExec.normal)
        ["a", "b"])[0]? =
      some (GatherResult.ok
        (request (fun _ => TransportOutcome.response ⟨200, "text/plain", "ok"⟩) 3)) :=
  ⟨(gather_captures_fault_in_place
      (fun _ _ => TransportOutcome.response ⟨200, "text/plain", "ok"⟩)
      (fun u => if u = "b" then UnitExec.fault "ValueError: boom" else UnitExec.normal)
      ["a", "b"] 1 (by decide) "ValueError: boom" (by decide)).2.1,
   (gather_captures_fault_in_place
      (fun _ _ => TransportOutcome.response ⟨200, "text/plain", "ok"⟩)
      (fun u => if u = "b" then UnitExec.fault "ValueError: boom" else UnitExec.normal)
      ["a", "b"] 1 (by decide) "ValueError: boom" (by decide)).2.2 0 (by decide) (by decide)⟩

end AsyncPatterns
namespace AsyncPatterns

theorem countInflight_set_inflight (l : List Phase) :
    ∀ i, l.get? i = some Phase.waiting →
      countInflight (l.set i Phase.inflight) = countInflight l + 1 := by
  induction l with
  | nil => intro i h; cases h
  | cons a rest ih =>
      intro i h
      cases i with
      | zero =>
          have ha : a = Phase.waiting := by simpa using h
          subst ha
          simp [countInflight]
      | succ i =>
          have hr := ih i (by simpa using h)
          cases a <;> simp [countInflight, hr]

theorem countInflight_set_finished (l : List Phase) :
    ∀ i, l.get? i = some Phase.inflight →
      countInflight (l.set i Phase.finished) + 1 = countInflight l := by
  induction l with
  | nil => intro i h; cases h
  | cons a rest ih =>
      intro i h
      cases i with
      | zero =>
          have ha : a = Phase.inflight := by simpa using h
          subst ha
          simp [countInflight]
      | succ i =>
          have hr := ih i (by simpa using h)
          cases a <;> simp [countInflight] <;> omega

theorem countInflight_replicate_waiting (n : Nat) :
    countInflight (List.replicate n Phase.waiting) = 0 := by
  induction n with
  | zero => rfl
  | succ n ih => simpa [List.replicate, countInflight] using ih

theorem semStep_permits_balance (K : Nat) (s s2 : SemState) (hs : SemStep s s2)
    (h : countInflight s.phases + s.permits = K) :
    countInflight s2.phases + s2.permits = K := by
  cases hs with
  | acquire i hw hp =>
      have hset := countInflight_set_inflight s.phases i hw
      simp only [hset]
      omega
  | release i hf =>
      have hset := countInflight_set_finished s.phases i hf
      simp only []
      omega

/-- C9: for a batch run under a fresh semaphore with capacity K (line 93 fixes
K = 10), in every state reachable by cooperative scheduling from the initial
batch state, at most K units are simultaneously in the calling-transport phase:
a waiting unit can only acquire when a permit is free. -/
theorem limiter_bounds_inflight (K n : Nat) (s : SemState)
    (hr : Relation.ReflTransGen SemStep (semInit K n) s) :
    countInflight s.phases ≤ K := by
  have key : countInflight s.phases + s.permits = K := by
    induction hr with
    | refl => simp [semInit, countInflight_replicate_waiting]
    | tail hstep ih => exact semStep_permits_balance K _ _ (by assumption) (by assumption)
  omega

/-- Closed witness for `limiter_bounds_inflight`: with K = 2 and 5 units, after
one unit acquires and enters the transport phase, the in-flight count is within
the bound. -/
theorem limiter_bounds_inflight_witness :
    countInflight ((List.replicate 5 Phase.waiting).set 0 Phase.inflight) ≤ 2 :=
  limiter_bounds_inflight 2 5 ⟨2 - 1, (List.replicate 5 Phase.waiting).set 0 Phase.inflight⟩
    (Relation.ReflTransGen.single
      (SemStep.acquire (semInit 2 5) 0 (by decide) (by decide)))

end AsyncPatterns
namespace AsyncPatterns

theorem dictLookup_dictInsert_self (d : List (String × Nat)) (k : String) (v : Nat) :
    dictLookup (dictInsert d k v) k = some v := by
  induction d with
  | nil => simp [dictInsert, dictLookup]
  | cons p rest ih =>
      obtain ⟨k2, v2⟩ := p
      by_cases h : k2 = k
      · subst h
        simp [dictInsert, dictLookup]
      · simp [dictInsert, dictLookup, h, ih]

theorem cancel_task_eq_unknown (m : Manager) (name : String)
    (hl : dictLookup m.tasks name = none) : cancel_task m name = (m, false) := by
  unfold cancel_task
  simp only [hl]

theorem cancel_task_eq_dangling (m : Manager) (name : String) (h2 : Nat)
    (hl : dictLookup m.tasks name = some h2) (hp : m.pool h2 = none) :
    cancel_task m name = (m, false) := by
  unfold cancel_task
  simp only [hl, hp]

theorem cancel_task_eq_of_lookup (m : Manager) (name : String) (h2 : Nat) (t : TaskObj)
    (hl : dictLookup m.tasks name = some h2) (hp : m.pool h2 = some t) :
    cancel_task m name =
      if t.state = TaskState.running then
        ({ m with pool := fun k =>
            if k = h2 then some { t with cancelRequested := true } else m.pool k },
         true)
      else (m, false) := by
  unfold cancel_task
  simp only [hl, hp]

/-- C7: `cancel_task name` returns `True` exactly when the name is bound in the
live dict to a task that is not yet terminal; then that task has cancellation
requested on it. On `False` — unknown name or already-terminal task — the
manager is left completely unchanged: no cancellation is requested. -/
theorem cancel_task_semantics (m : Manager) (name : String) :
    ((cancel_task m name).2 = true ↔
      ∃ h t, dictLookup m.tasks name = some h ∧ m.pool h = some t ∧
        t.state = TaskState.running) ∧
    ((cancel_task m name).2 = false → (cancel_task m name).1 = m) ∧
    (∀ h t, dictLookup m.tasks name = some h → m.pool h = some t →
      t.state = TaskState.running →
      (cancel_task m name).1.pool h = some { t with cancelRequested := true }) := by
  refine ⟨⟨?_, ?_⟩, ?_, ?_⟩
  · intro htrue
    cases hl : dictLookup m.tasks name with
    | none =>
        rw [cancel_task_eq_unknown m name hl] at htrue
        cases htrue
    | some h2 =>
        cases hp : m.pool h2 with
        | none =>
            rw [cancel_task_eq_dangling m name h2 hl hp] at htrue
            cases htrue
        | some t =>
            by_cases hr : t.state = TaskState.running
            · exact ⟨h2, t, rfl, hp, hr⟩
            · rw [cancel_task_eq_of_lookup m name h2 t hl hp, if_neg hr] at htrue
              cases htrue
  · rintro ⟨h2, t, hl, hp, hr⟩
    rw [cancel_task_eq_of_lookup m name h2 t hl hp, if_pos hr]
  · intro hfalse
    cases hl : dictLookup m.tasks name with
    | none => rw [cancel_task_eq_unknown m name hl]
    | some h2 =>
        cases hp : m.pool h2 with
        | none => rw [cancel_task_eq_dangling m name h2 hl hp]
        | some t =>
            by_cases hr : t.state = TaskState.running
            · rw [cancel_task_eq_of_lookup m name h2 t hl hp, if_pos hr] at hfalse
              cases hfalse
            · rw [cancel_task_eq_of_lookup m name h2 t hl hp, if_neg hr]
  · intro h2 t hl hp hr
    rw [cancel_task_eq_of_lookup m name h2 t hl hp, if_pos hr]
    simp

/-- Closed witness for `cancel_task_semantics`: cancelling a registered running
task returns `True`; cancelling an unknown name returns `False`. -/
theorem cancel_task_semantics_witness :
    (cancel_task
      ⟨[("t1", 0)],
       fun k => if k = 0 then some ⟨TaskState.running, false, "t1", "w"⟩ else none, 1⟩
      "t1").2 = true ∧
    (cancel_task
      ⟨[("t1", 0)],
       fun k => if k = 0 then some ⟨TaskState.running, false, "t1", "w"⟩ else none, 1⟩
      "unknown").2 = false :=
  ⟨(cancel_task_semantics
      ⟨[("t1", 0)],
       fun k => if k = 0 then some ⟨TaskState.running, false, "t1", "w"⟩ else none, 1⟩
      "t1").1.mpr ⟨0, ⟨TaskState.running, false, "t1", "w"⟩, rfl, rfl, rfl⟩,
   by decide⟩

end AsyncPatterns
namespace AsyncPatterns

/-- C8: `start_task name work` on a manager where `name` is bound to a live
(non-terminal) task first requests cancellation of that task (cancel-then-replace,
never silently dropped), then allocates and begins the new unit and tracks it in
the dict under `name`: afterwards the dict maps `name` to the fresh running task
and the old task carries the cancellation request. -/
theorem start_task_cancel_then_replace (m : Manager) (name work : String) (h : Nat)
    (t : TaskObj) (hl : dictLookup m.tasks name = some h) (hp : m.pool h = some t)
    (hr : t.state = TaskState.running) (hn : h < m.next) :
    dictLookup (start_task m name work).tasks name = some m.next ∧
    (start_task m name work).pool m.next =
      some ⟨TaskState.running, false, name, work⟩ ∧
    (start_task m name work).pool h = some { t with cancelRequested := true } := by
  have hc : cancel_task m name =
      ({ m with pool := fun k =>
          if k = h then some { t with cancelRequested := true } else m.pool k },
       true) := by
    rw [cancel_task_eq_of_lookup m name h t hl hp, if_pos hr]
  unfold start_task
  rw [hl]
  simp only [Option.isSome_some, if_pos, hc]
  refine ⟨dictLookup_dictInsert_self m.tasks name m.next, by simp, ?_⟩
  have hne : h ≠ m.next := Nat.ne_of_lt hn
  simp [hne]

/-- Closed witness for `start_task_cancel_then_replace`: restarting "t1" while
its first task is still running cancels the first task and tracks the second. -/
theorem start_task_cancel_then_replace_witness :
    dictLookup (start_task
      ⟨[("t1", 0)],
       fun k => if k = 0 then some ⟨TaskState.running, false, "t1", "w1"⟩ else none, 1⟩
      "t1" "w2").tasks "t1" = some 1 ∧
    (start_task
      ⟨[("t1", 0)],
       fun k => if k = 0 then some ⟨TaskState.running, false, "t1", "w1"⟩ else none, 1⟩
      "t1" "w2").pool 1 = some ⟨TaskState.running, false, "t1", "w2"⟩ ∧
    (start_task
      ⟨[("t1", 0)],
       fun k => if k = 0 then some ⟨TaskState.running, false, "t1", "w1"⟩ else none, 1⟩
      "t1" "w2").pool 0 = some ⟨TaskState.running, true, "t1", "w1"⟩ :=
  start_task_cancel_then_replace
    ⟨[("t1", 0)],
     fun k => if k = 0 then some ⟨TaskState.running, false, "t1", "w1"⟩ else none, 1⟩
    "t1" "w2" 0 ⟨TaskState.running, false, "t1", "w1"⟩ rfl rfl rfl (by decide)

/-- C10: `start_task "t1" w1` then `start_task "t1" w2` while the first task is
still running leaves the dict mapping "t1" to the second task; when the first
task then reaches a terminal state, its completion callback fires with the
captured name "t1" and `_task_completed` deletes whatever entry is stored under
"t1" — the second task — so the second task becomes untracked while still
running, and a subsequent `cancel_task "t1"` returns `False` even though the
second task has not terminated. -/
theorem completion_callback_unregisters_replacement :
    dictLookup (start_task (start_task ⟨[], fun _ => none, 0⟩ "t1" "w1")
      "t1" "w2").tasks "t1" = some 1 ∧
    ((start_task (start_task ⟨[], fun _ => none, 0⟩ "t1" "w1")
      "t1" "w2").pool 0).map TaskObj.state = some TaskState.running ∧
    dictLookup (finish_task (start_task (start_task ⟨[], fun _ => none, 0⟩ "t1" "w1")
      "t1" "w2") 0).tasks "t1" = none ∧
    ((finish_task (start_task (start_task ⟨[], fun _ => none, 0⟩ "t1" "w1")
      "t1" "w2") 0).pool 1).map TaskObj.state = some TaskState.running ∧
    (cancel_task (finish_task (start_task (start_task ⟨[], fun _ => none, 0⟩ "t1" "w1")
      "t1" "w2") 0) "t1").2 = false := by
  decide

end AsyncPatterns
